import Mathlib

/-!
Verification of the ETL repository core: region resolution (ETL/transform/mapper.py),
regional aggregation (ETL/transform/aggregator.py), emissions merge
(ETL/transform/merger.py), historical cleanup (ETL/load/loader.py) and the
orchestrator statistics/backoff logic (pipeline.py).

Modelling conventions:
* Python dicts that are iterated in insertion order are modelled as association
  lists in declaration order; numeric JSON values are modelled as rationals
  (the source decimal literals are taken exactly).
* Optional JSON keys are modelled as `Option` fields; Python falsiness of a
  string variable (`None` or the empty string) and of an integer variable
  (`None` or `0`) is modelled explicitly.
* The source compares square roots of the squared coordinate differences;
  since the square root is strictly monotone on nonnegative rationals, the
  comparisons are carried out on the squared distances, which preserves every
  `<` and `<=` outcome.
-/

namespace ETL

/-! ## Region catalog (mapper.py lines 6-39) -/

/-- mapper.py lines 6-21: the region-name to region-id table, in declaration order. -/
def REGION_NAME_TO_ID : List (String × Nat) :=
  [("North Scotland", 1), ("South Scotland", 2), ("North West England", 3),
   ("North East England", 4), ("Yorkshire", 5), ("North Wales", 6),
   ("South Wales", 7), ("West Midlands", 8), ("East Midlands", 9),
   ("East England", 10), ("South West England", 11), ("South England", 12),
   ("London", 13), ("South East England", 14)]

/-- A bounding box, mapper.py lines 24-39. -/
structure Bounds where
  lat_min : ℚ
  lat_max : ℚ
  lon_min : ℚ
  lon_max : ℚ
deriving DecidableEq

/-- mapper.py lines 24-39: the UK regions with bounding boxes, in declaration order. -/
def UK_REGIONS : List (String × Bounds) :=
  [("North Scotland", ⟨56.5, 60.0, -8.0, -1.0⟩),
   ("South Scotland", ⟨54.8, 56.5, -6.0, -1.5⟩),
   ("North West England", ⟨53.0, 55.0, -4.0, -2.0⟩),
   ("North East England", ⟨53.5, 55.5, -2.0, -0.5⟩),
   ("Yorkshire", ⟨53.0, 54.5, -2.5, -0.5⟩),
   ("North Wales", ⟨52.5, 53.5, -5.0, -2.8⟩),
   ("South Wales", ⟨51.0, 52.5, -5.0, -2.8⟩),
   ("West Midlands", ⟨52.0, 53.0, -3.0, -1.5⟩),
   ("East Midlands", ⟨52.0, 53.5, -1.5, 0.5⟩),
   ("East England", ⟨51.5, 53.0, -0.5, 2.0⟩),
   ("South West England", ⟨49.5, 52.0, -6.5, -2.0⟩),
   ("South England", ⟨50.5, 52.0, -2.0, 0.0⟩),
   ("London", ⟨51.3, 51.7, -0.5, 0.3⟩),
   ("South East England", ⟨50.5, 52.0, 0.0, 1.5⟩)]

/-- mapper.py lines 88-89: inclusive point-in-bounding-box test. -/
def containsPoint (b : Bounds) (lat lon : ℚ) : Bool :=
  decide (b.lat_min ≤ lat ∧ lat ≤ b.lat_max ∧ b.lon_min ≤ lon ∧ lon ≤ b.lon_max)

/-- mapper.py lines 98-102: squared planar distance from `(lat, lon)` to the
centroid of a bounding box.  The source takes the square root before comparing;
comparisons of the squares agree with comparisons of the roots. -/
def dist2 (lat lon : ℚ) (b : Bounds) : ℚ :=
  (lat - (b.lat_min + b.lat_max) / 2) ^ 2 + (lon - (b.lon_min + b.lon_max) / 2) ^ 2

/-- One step of the running-minimum loop of mapper.py lines 96-106: replace the
current best when the new distance is strictly smaller (`min_distance` starts
at infinity, so the first element always replaces the empty accumulator; the
strict `<` comparison keeps the earlier element on ties). -/
def foldMinStep {α : Type} (f : α → ℚ) (acc : Option α) (x : α) : Option α :=
  match acc with
  | none => some x
  | some a => if f x < f a then some x else some a

/-- mapper.py lines 93-106: the running-minimum loop. -/
def foldMin {α : Type} (f : α → ℚ) (l : List α) : Option α :=
  l.foldl (foldMinStep f) none

/-- mapper.py lines 75-108: `get_region_from_coordinates`.  First containing
bounding box in declaration order, else the region with the closest centroid. -/
def get_region_from_coordinates (lat lon : ℚ) : Option String :=
  match UK_REGIONS.find? (fun rb => containsPoint rb.2 lat lon) with
  | some rb => some rb.1
  | none => (foldMin (fun rb => dist2 lat lon rb.2) UK_REGIONS).map Prod.fst

/-- Modelled from the wording of the specification (section 4.1, strategy 3):
test point-in-bounding-box against every Region in declaration order, first
containing region wins; if no box contains the point, select the region whose
bounding-box centroid is nearest by Euclidean distance, ties broken by
declaration order (the first region whose distance is less than or equal to
the distance of every region). -/
def coordinate_fallback_spec (lat lon : ℚ) : Option String :=
  match UK_REGIONS.find? (fun rb => containsPoint rb.2 lat lon) with
  | some rb => some rb.1
  | none =>
      (UK_REGIONS.find? (fun rb =>
        UK_REGIONS.all (fun rb2 => decide (dist2 lat lon rb.2 ≤ dist2 lat lon rb2.2)))).map
        Prod.fst

/-! ## Raw observations (the IQAir JSON shape consumed by mapper.py) -/

/-- The weather sub-object of `data.current`, aggregator.py lines 22-28.  The
same shape also serves for the aggregated (mean) weather values. -/
structure Weather where
  hu : Option ℚ
  pr : Option ℚ
  tp : Option ℚ
  wd : Option ℚ
  ws : Option ℚ
deriving DecidableEq

/-- The pollution sub-object of `data.current`, aggregator.py lines 30-33. -/
structure Pollution where
  aqius : Option ℚ
  aqicn : Option ℚ
deriving DecidableEq

/-- The `data.current` object: optional weather and pollution sub-objects. -/
structure Current where
  weather : Option Weather
  pollution : Option Pollution
deriving DecidableEq

/-- The `data.location` object: an optional GeoJSON coordinates array `[lon, lat, ...]`. -/
structure LocationData where
  coordinates : Option (List ℚ)
deriving DecidableEq

/-- The `data` sub-object of one raw observation: optional region name,
optional region id, optional location, optional current conditions. -/
structure CityData where
  region : Option String
  region_id : Option Nat
  location : Option LocationData
  current : Option Current
deriving DecidableEq

/-- One raw observation as mapper.py sees it: a JSON object with an optional
`data` sub-object. -/
structure Observation where
  data : Option CityData
deriving DecidableEq

/-! ## Region resolution (mapper.py lines 110-152) -/

/-- Python falsiness of an optional string variable: `None` and `""` are falsy. -/
def pyTruthyStr : Option String → Bool
  | none => false
  | some s => decide (s ≠ "")

/-- Python falsiness of an optional integer variable: `None` and `0` are falsy. -/
def pyTruthyNat : Option Nat → Bool
  | none => false
  | some n => decide (n ≠ 0)

/-- mapper.py lines 115-132: the three fallback strategies, producing the value
of the Python `region` variable just before the line 135 check.  Method 1 is the
table lookup, method 2 the pre-existing `data.region` field, method 3 the
coordinate fallback; each later method fires only while `region` is falsy. -/
def resolveRegion (city : String) (obs : Observation)
    (city_to_region : List (String × String)) : Option String :=
  -- Method 1 (line 118): if city in city_to_region
  let region : Option String := List.lookup city city_to_region
  -- Method 2 (line 122): if not region and "data" in data and "region" in data["data"]
  let region : Option String :=
    if pyTruthyStr region then region
    else
      match obs.data with
      | some dd =>
          match dd.region with
          | some r => some r
          | none => region
      | none => region
  -- Method 3 (line 126): coordinates [lon, lat] if present and of length >= 2
  let region : Option String :=
    if pyTruthyStr region then region
    else
      match obs.data with
      | some dd =>
          match dd.location with
          | some loc =>
              match loc.coordinates with
              | some (lon :: lat :: _) => get_region_from_coordinates lat lon
              | some _ => region
              | none => region
          | none => region
      | none => region
  region

/-- mapper.py lines 145-149: attach `region` and `region_id` to the `data`
sub-object when it exists (the observation is kept unchanged otherwise). -/
def attachRegion (obs : Observation) (r : String) (i : Nat) : Observation :=
  match obs.data with
  | some dd => ⟨some { dd with region := some r, region_id := some i }⟩
  | none => obs

/-- mapper.py lines 114-150: the body of the per-city loop.  `none` means the
city is skipped (line 137 or line 143); otherwise the city is emitted, with the
region fields attached when a `data` sub-object exists. -/
def processCity (city_to_region : List (String × String))
    (entry : String × Observation) : Option (String × Observation) :=
  match resolveRegion entry.1 entry.2 city_to_region with
  | none => none                        -- line 135: region is falsy, skip
  | some r =>
      if r = "" then none               -- line 135: the empty string is falsy too
      else
        match List.lookup r REGION_NAME_TO_ID with
        | none => none                  -- line 141: region id is falsy, skip
        | some i =>
            if i = 0 then none          -- line 141: a zero id would be falsy
            else some (entry.1, attachRegion entry.2 r i)

/-- mapper.py lines 110-152: `map_cities_to_regions` over an insertion-ordered
mapping of city name to raw observation. -/
def map_cities_to_regions (iqair_data : List (String × Observation))
    (city_to_region : List (String × String)) : List (String × Observation) :=
  iqair_data.filterMap (processCity city_to_region)

/-! ## Regional aggregation (aggregator.py lines 6-77) -/

/-- aggregator.py lines 9-13 helper: append an observation to the group of a
region id, keeping first-insertion key order (`defaultdict` behaviour). -/
def addToGroup : List (Nat × List Observation) → Nat → Observation →
    List (Nat × List Observation)
  | [], rid, d => [(rid, [d])]
  | (k, g) :: rest, rid, d =>
      if k = rid then (k, g ++ [d]) :: rest else (k, g) :: addToGroup rest rid d

/-- aggregator.py lines 10-13: one step of the grouping loop.  An observation
participates only when it has a `data` sub-object carrying a `region_id` key. -/
def groupStep (acc : List (Nat × List Observation)) (p : String × Observation) :
    List (Nat × List Observation) :=
  match p.2.data with
  | some dd =>
      match dd.region_id with
      | some rid => addToGroup acc rid p.2
      | none => acc
  | none => acc

/-- aggregator.py lines 8-13: group the mapped observations by region id. -/
def groupByRegion (mapped_data : List (String × Observation)) :
    List (Nat × List Observation) :=
  mapped_data.foldl groupStep []

/-- The members of `mapped_data` whose `data.region_id` equals `rid`, in input
order: the partition the specification speaks about. -/
def region_partition (rid : Nat) (mapped_data : List (String × Observation)) :
    List Observation :=
  mapped_data.filterMap (fun p =>
    match p.2.data with
    | some dd => if dd.region_id = some rid then some p.2 else none
    | none => none)

/-- aggregator.py lines 40-44: the weather values contributed for one key by
the cities of a partition (cities lacking `data`, `current`, `weather` or the
key contribute nothing). -/
def weatherVals (cities : List Observation) (sel : Weather → Option ℚ) : List ℚ :=
  cities.filterMap (fun d =>
    ((d.data.bind (fun dd => dd.current)).bind (fun c => c.weather)).bind sel)

/-- aggregator.py lines 46-50: the pollution values contributed for one key. -/
def pollutionVals (cities : List Observation) (sel : Pollution → Option ℚ) : List ℚ :=
  cities.filterMap (fun d =>
    ((d.data.bind (fun dd => dd.current)).bind (fun c => c.pollution)).bind sel)

/-- Python `statistics.mean`: sum divided by length (numbers modelled as rationals). -/
def mean (l : List ℚ) : ℚ := l.sum / l.length

/-- Python `round` to an integer: round half to even on the exact value. -/
def roundHalfEven (x : ℚ) : ℤ :=
  if x - ⌊x⌋ < 1 / 2 then ⌊x⌋
  else if (1 : ℚ) / 2 < x - ⌊x⌋ then ⌊x⌋ + 1
  else if ⌊x⌋ % 2 = 0 then ⌊x⌋ else ⌊x⌋ + 1

/-- Python `round(x, 2)`: round half to even at two decimal places.  A Python
float holds a dyadic rational exactly and CPython `round` rounds that exact
value to the nearest two-decimal value, half to even, so this model is
faithful on every dyadic rational argument (the only values a float can hold;
for example `round(0.125, 2) = 0.12`, the half-to-even case, since 0.125 is
exactly representable).  A non-dyadic rational such as 1/200 is not a possible
float value and lies outside the faithful domain of this model; theorems that
characterise the rounding therefore restrict the metric value to dyadic
rationals. -/
def roundTo2 (x : ℚ) : ℚ := (roundHalfEven (x * 100) : ℚ) / 100

/-- A dyadic rational: the exact value of a binary floating-point number
(ignoring range limits), hence the only metric values the JSON-parsed program
data can hold. -/
def IsDyadic (v : ℚ) : Prop := ∃ (n : ℤ) (k : ℕ), v = (n : ℚ) / 2 ^ k

/-- aggregator.py lines 53-61: a metric key is emitted only when at least one
value was collected (`if values:`), with the rounded mean as its value. -/
def aggField (vals : List ℚ) : Option ℚ :=
  if vals = [] then none else some (roundTo2 (mean vals))

/-- One value of the aggregated mapping, aggregator.py lines 64-75. -/
structure AggData where
  region_id : Nat
  region : Option String
  cities_count : Nat
  weather : Weather
  pollution : Pollution
deriving DecidableEq

/-- aggregator.py lines 17-75: the per-region aggregation body.  The region
name is read from the first city of the group (line 19). -/
def aggregateOne (rid : Nat) (cities_data : List Observation) : AggData :=
  { region_id := rid
    region := (cities_data.head?.bind (fun d => d.data)).bind (fun dd => dd.region)
    cities_count := cities_data.length
    weather :=
      { hu := aggField (weatherVals cities_data (fun w => w.hu))
        pr := aggField (weatherVals cities_data (fun w => w.pr))
        tp := aggField (weatherVals cities_data (fun w => w.tp))
        wd := aggField (weatherVals cities_data (fun w => w.wd))
        ws := aggField (weatherVals cities_data (fun w => w.ws)) }
    pollution :=
      { aqius := aggField (pollutionVals cities_data (fun p => p.aqius))
        aqicn := aggField (pollutionVals cities_data (fun p => p.aqicn)) } }

/-- aggregator.py lines 6-77: `aggregate_by_region`.  The output is keyed by
`str(region_id)` in the source; the keys are modelled by the region id itself. -/
def aggregate_by_region (mapped_data : List (String × Observation)) :
    List (Nat × AggData) :=
  (groupByRegion mapped_data).map (fun p => (p.1, aggregateOne p.1 p.2))

/-! ## Emissions merge (merger.py lines 17-65) -/

/-- One CO2 data point, merger.py lines 45-54: four optional keys that are
copied verbatim into the merged record.  The payload values (the intensity
object, the generation-mix array and the two timestamps) are not inspected by the
merge and are modelled as strings. -/
structure Co2Point where
  intensity : Option String
  generationmix : Option String
  fromT : Option String
  toT : Option String
deriving DecidableEq

/-- The element carried by the outer CO2 `data` array, merger.py line 44: an
object with an optional inner `data` array. -/
structure Co2Info where
  data : Option (List Co2Point)
deriving DecidableEq

/-- One region entry of the CO2 input, merger.py line 31: an object with an
optional `data` array. -/
structure Co2Region where
  data : Option (List Co2Info)
deriving DecidableEq

/-- A merged record, merger.py lines 35-54: the four emissions fields are
present only when a CO2 data point carries them. -/
structure MergedRecord where
  region_id : Nat
  region : Option String
  cities_count : Nat
  weather : Weather
  pollution : Pollution
  intensity : Option String
  generationmix : Option String
  fromT : Option String
  toT : Option String
deriving DecidableEq

/-- merger.py lines 22-63: the body of the per-region loop of `merge_data`. -/
def mergeOne (rid : Nat) (agg : AggData) (co2_data : List (Nat × Co2Region)) :
    MergedRecord :=
  match List.lookup rid co2_data with
  | none =>
      -- line 55: no CO2 data, just use the IQAir fields
      { region_id := rid, region := agg.region, cities_count := agg.cities_count
        weather := agg.weather, pollution := agg.pollution
        intensity := none, generationmix := none, fromT := none, toT := none }
  | some co2_region =>
      -- lines 30-32: co2_info = co2_region_data["data"][0] when present and nonempty
      let co2_info : Option Co2Info :=
        match co2_region.data with
        | some (i :: _) => some i
        | some [] => none
        | none => none
      -- lines 44-45: co2_data_point = co2_info["data"][0] when present and nonempty
      let pt : Option Co2Point :=
        match co2_info with
        | some ci =>
            match ci.data with
            | some (p :: _) => some p
            | some [] => none
            | none => none
        | none => none
      { region_id := rid, region := agg.region, cities_count := agg.cities_count
        weather := agg.weather, pollution := agg.pollution
        intensity := pt.bind (fun p => p.intensity)
        generationmix := pt.bind (fun p => p.generationmix)
        fromT := pt.bind (fun p => p.fromT)
        toT := pt.bind (fun p => p.toT) }

/-- merger.py lines 17-65: `merge_data`.  Region-id keys (decimal strings in
the source, produced by `str(region_id)`) are modelled by the ids themselves. -/
def merge_data (iqair_aggregated : List (Nat × AggData))
    (co2_data : List (Nat × Co2Region)) : List (Nat × MergedRecord) :=
  iqair_aggregated.map (fun p => (p.1, mergeOne p.1 p.2 co2_data))

/-! ## Historical cleanup (loader.py lines 157-202) -/

/-- Python `xs[-k:]`: the whole list when `k = 0` (since `-0 == 0`), otherwise
the last `min(k, len(xs))` entries. -/
def pySliceLast {α : Type} (xs : List α) (k : Nat) : List α :=
  if k = 0 then xs else xs.drop (xs.length - k)

/-- loader.py lines 157-176: `cleanup_old_entries` on the list stored in the
file (the file system round trip is elided). -/
def cleanup_old_entries {α : Type} (data : List α) (max_entries : Nat) : List α :=
  if data.length > max_entries then pySliceLast data max_entries else data

/-- loader.py lines 198-202: on a successful load, `main` caps each of the
three historical files at 50 entries. -/
def loader_cleanup_phase {α : Type} (mapped iqair merged : List α) :
    List α × List α × List α :=
  (cleanup_old_entries mapped 50, cleanup_old_entries iqair 50,
   cleanup_old_entries merged 50)

/-! ## Orchestrator (pipeline.py) -/

/-- pipeline.py line 22. -/
def PIPELINE_INTERVAL_MINUTES : Nat := 30

/-- pipeline.py line 23. -/
def MAX_CONSECUTIVE_FAILURES : Nat := 5

/-- pipeline.py line 24. -/
def FAILURE_BACKOFF_SECONDS : Nat := 300

/-- pipeline.py lines 27-34: the run statistics (times in seconds). -/
structure Stats where
  total_runs : Nat
  successful_runs : Nat
  failed_runs : Nat
  consecutive_failures : Nat
  start_time : Option Nat
  last_successful_run : Option Nat
deriving DecidableEq

/-- pipeline.py lines 92-102: `update_stats` (`now` stands for `datetime.now()`). -/
def update_stats (s : Stats) (success : Bool) (now : Nat) : Stats :=
  let s := { s with total_runs := s.total_runs + 1 }
  if success then
    { s with successful_runs := s.successful_runs + 1
             consecutive_failures := 0
             last_successful_run := some now }
  else
    { s with failed_runs := s.failed_runs + 1
             consecutive_failures := s.consecutive_failures + 1 }

/-- The observable outcome of one `run_pipeline` call: which stages were
invoked and the overall success flag. -/
structure RunOutcome where
  transform_invoked : Bool
  load_invoked : Bool
  success : Bool
deriving DecidableEq

/-- pipeline.py lines 119-167: `run_pipeline`, parametrised by the result each
stage would report if invoked (`e`, `t`, `l`). -/
def run_pipeline (e t l : Bool) : RunOutcome :=
  let success := true
  let extract_success := e
  let success := if extract_success then success else false   -- lines 130-132
  let transform_success := if extract_success then t else false -- lines 135-141
  let success := if extract_success && !transform_success then false else success
  let load_success := if transform_success then l else false  -- lines 144-150
  let success := if transform_success && !load_success then false else success
  { transform_invoked := extract_success
    load_invoked := transform_success
    success := success }

/-- pipeline.py lines 169-192: `run_pipeline_safe`.  Returns the updated
statistics, the success flag, and the elapsed wall-clock seconds of the call:
the run duration plus the backoff sleep of line 177 when the consecutive
failure count has reached the threshold. -/
def run_pipeline_safe (s : Stats) (e t l : Bool) (now runDuration : Nat) :
    Stats × Bool × Nat :=
  let out := run_pipeline e t l
  let s2 := update_stats s out.success now
  let extra :=
    if s2.consecutive_failures ≥ MAX_CONSECUTIVE_FAILURES
    then FAILURE_BACKOFF_SECONDS else 0
  (s2, out.success, runDuration + extra)

/-- pipeline.py lines 219 and 231: the scheduler loop reads `current_time`
before calling `run_pipeline_safe` and afterwards sets
`next_run_time = current_time + timedelta(minutes=PIPELINE_INTERVAL_MINUTES)`;
the next scheduled run time is therefore a function of the run start alone. -/
def next_run_time_after (run_start : Nat) : Nat :=
  run_start + 60 * PIPELINE_INTERVAL_MINUTES

/-! ## Sample data used by witnesses and counterexamples -/

/-- An observation that already carries a region name but is also listed in a
table that maps its city to the empty string (C2 sample data). -/
def obsC2 : Observation :=
  ⟨some { region := some "London", region_id := none, location := none, current := none }⟩

/-- Statistics one failure short of the backoff threshold (C3 sample data). -/
def statsC3 : Stats :=
  { total_runs := 9, successful_runs := 5, failed_runs := 4
    consecutive_failures := 4, start_time := some 0, last_successful_run := some 100 }

/-- An aggregate record for a region with no emissions entry (C5 sample data). -/
def aggC5 : AggData :=
  { region_id := 13, region := some "London", cities_count := 2
    weather := ⟨some 40, none, none, none, none⟩, pollution := ⟨some 21, none⟩ }

/-- An observation with no `data` sub-object at all (C8 sample data). -/
def obsNoData : Observation := ⟨none⟩

/-- An unresolved observation with an empty `data` sub-object (C8 sample data). -/
def obsC8 : Observation := ⟨some ⟨none, none, none, none⟩⟩

/-- The `data` sub-object `obsC8` carries after resolution against a table
mapping its city to Yorkshire (C8 sample data). -/
def cityDataC8 : CityData := ⟨some "Yorkshire", some 5, none, none⟩

/-- The shape of `obsC8` after resolution (C8 sample data). -/
def obsC8R : Observation := ⟨some cityDataC8⟩

/-- An unresolved observation with an empty `data` sub-object (C9 sample data). -/
def obsC9 : Observation := ⟨some ⟨none, none, none, none⟩⟩

/-- The shape of `obsC9` after resolution against a table mapping its city to Yorkshire
(C9 sample data). -/
def obsC9R : Observation := ⟨some ⟨some "Yorkshire", some 5, none, none⟩⟩

/-- A resolved observation with no current-conditions object (C6 sample data). -/
def obsC6 : Observation := ⟨some ⟨some "Yorkshire", some 5, none, none⟩⟩

/-- A resolved observation reporting a humidity of 1/8 = 0.125, a dyadic value
(exactly representable as a float) sitting at the two-decimal halfway point,
where CPython round half-to-even yields 0.12 (C7 sample data). -/
def obsC7 : Observation :=
  ⟨some ⟨some "Yorkshire", some 5, none,
    some ⟨some ⟨some (1 / 8), none, none, none, none⟩, none⟩⟩⟩

/-- A resolved observation reporting a humidity of 40 (C7 sample data). -/
def obsC7W : Observation :=
  ⟨some ⟨some "Yorkshire", some 5, none,
    some ⟨some ⟨some 40, none, none, none, none⟩, none⟩⟩⟩

/-! ## Helper lemmas -/

theorem findCongr {α : Type} (p q : α → Bool) :
    ∀ l : List α, (∀ x ∈ l, p x = q x) → l.find? p = l.find? q := by
  intro l
  induction l with
  | nil => intro _; rfl
  | cons a t ih =>
      intro h
      have ha : p a = q a := h a (List.mem_cons_self a t)
      have ht : ∀ x ∈ t, p x = q x := fun x hx => h x (List.mem_cons_of_mem a hx)
      simp only [List.find?, ha]
      cases q a
      · exact ih ht
      · rfl

theorem foldMinAux {α : Type} (f : α → ℚ) :
    ∀ (l : List α) (a : α),
      l.foldl (foldMinStep f) (some a) =
        (a :: l).find? (fun x => (a :: l).all (fun y => decide (f x ≤ f y))) := by
  intro l
  induction l with
  | nil =>
      intro a
      simp [List.find?]
  | cons x xs ih =>
      intro a
      show xs.foldl (foldMinStep f) (foldMinStep f (some a) x) = _
      by_cases hxa : f x < f a
      · have hstep : foldMinStep f (some a) x = some x := by
          simp [foldMinStep, hxa]
        rw [hstep, ih x]
        have hPa : ((a :: x :: xs).all (fun y => decide (f a ≤ f y))) = false := by
          simp only [List.all_cons, Bool.and_eq_false_iff]
          right; left
          simpa using hxa.not_le
        have h1 : (a :: x :: xs).find?
              (fun z => (a :: x :: xs).all (fun y => decide (f z ≤ f y))) =
            (x :: xs).find?
              (fun z => (a :: x :: xs).all (fun y => decide (f z ≤ f y))) := by
          simp only [List.find?, hPa]
        rw [h1]
        apply findCongr
        intro z _
        by_cases hzx : f z ≤ f x
        · have hza : f z ≤ f a := le_trans hzx hxa.le
          simp [List.all_cons, hzx, hza]
        · simp [List.all_cons, hzx]
      · have hax : f a ≤ f x := not_lt.mp hxa
        have hstep : foldMinStep f (some a) x = some a := by
          simp [foldMinStep, hxa]
        rw [hstep, ih a]
        by_cases hall : xs.all (fun y => decide (f a ≤ f y)) = true
        · have hP3 : ((a :: xs).all (fun y => decide (f a ≤ f y))) = true := by
            simp only [List.all_cons, hall]
            simp
          have hP2 : ((a :: x :: xs).all (fun y => decide (f a ≤ f y))) = true := by
            simp only [List.all_cons, hall]
            simp [hax]
          simp only [List.find?, hP3, hP2]
        · have hex : ∃ y ∈ xs, f y < f a := by
            by_contra hno
            push_neg at hno
            exact hall (by simpa [List.all_eq_true, not_lt] using hno)
          obtain ⟨y, hy, hylt⟩ := hex
          have hallF : xs.all (fun y => decide (f a ≤ f y)) = false := by
            simpa using hall
          have hP3 : ((a :: xs).all (fun y => decide (f a ≤ f y))) = false := by
            simp only [List.all_cons, hallF, Bool.and_false]
          have hP2a : ((a :: x :: xs).all (fun y => decide (f a ≤ f y))) = false := by
            simp only [List.all_cons, hallF, Bool.and_false]
          have hP2x : ((a :: x :: xs).all (fun y => decide (f x ≤ f y))) = false := by
            have hx_all : xs.all (fun y => decide (f x ≤ f y)) = false := by
              apply Bool.eq_false_iff.mpr
              intro hT
              have hxy := (List.all_eq_true.mp hT) y hy
              exact (hylt.trans_le hax).not_le (by simpa using hxy)
            simp only [List.all_cons, hx_all, Bool.and_false]
          have h2 : (a :: x :: xs).find?
                (fun z => (a :: x :: xs).all (fun y => decide (f z ≤ f y))) =
              xs.find?
                (fun z => (a :: x :: xs).all (fun y => decide (f z ≤ f y))) := by
            simp only [List.find?, hP2a, hP2x]
          have h3 : (a :: xs).find?
                (fun z => (a :: xs).all (fun y => decide (f z ≤ f y))) =
              xs.find?
                (fun z => (a :: xs).all (fun y => decide (f z ≤ f y))) := by
            simp only [List.find?, hP3]
          rw [h2, h3]
          apply findCongr
          intro z _
          by_cases hza : f z ≤ f a
          · have hzx : f z ≤ f x := le_trans hza hax
            simp [List.all_cons, hza, hzx]
          · simp [List.all_cons, hza]

theorem foldMin_eq_find_min {α : Type} (f : α → ℚ) (l : List α) :
    foldMin f l = l.find? (fun x => l.all (fun y => decide (f x ≤ f y))) := by
  cases l with
  | nil => rfl
  | cons x xs =>
      show xs.foldl (foldMinStep f) (foldMinStep f none x) = _
      rw [show foldMinStep f none x = some x from rfl]
      exact foldMinAux f xs x

theorem mem_of_lookup {α β : Type} [BEq α] [LawfulBEq α] :
    ∀ (l : List (α × β)) (a : α) (b : β), List.lookup a l = some b → (a, b) ∈ l := by
  intro l
  induction l with
  | nil => intro a b h; simp [List.lookup] at h
  | cons p t ih =>
      intro a b h
      obtain ⟨k, v⟩ := p
      rw [List.lookup] at h
      by_cases hk : a == k
      · rw [hk] at h
        have hak : a = k := eq_of_beq hk
        simp only at h
        obtain rfl := Option.some.inj h
        simp [hak]
      · have hk2 : (a == k) = false := by simpa using hk
        rw [hk2] at h
        exact List.mem_cons_of_mem _ (ih a b h)

/-- Inversion of the per-city loop body: a kept city passed the two falsiness
checks, and its emitted observation is the input with the region attached. -/
theorem processCity_eq_some {table : List (String × String)}
    {entry out : String × Observation} (h : processCity table entry = some out) :
    ∃ r i, resolveRegion entry.1 entry.2 table = some r ∧ r ≠ "" ∧
      List.lookup r REGION_NAME_TO_ID = some i ∧ i ≠ 0 ∧
      out = (entry.1, attachRegion entry.2 r i) := by
  revert h
  cases hres : resolveRegion entry.1 entry.2 table with
  | none => intro h; simp [processCity, hres] at h
  | some r =>
      intro h
      simp only [processCity, hres] at h
      by_cases hr : r = ""
      · simp [hr] at h
      · rw [if_neg hr] at h
        cases hid : List.lookup r REGION_NAME_TO_ID with
        | none => rw [hid] at h; cases h
        | some i =>
            rw [hid] at h
            by_cases hi : i = 0
            · simp [hi] at h
            · have h2 : some (entry.1, attachRegion entry.2 r i) = some out := by
                simpa [hi] using h
              exact ⟨r, i, rfl, hr, hid, hi, (Option.some.inj h2).symm⟩

/-- When the table lookup is truthy, method 1 decides the resolution. -/
theorem resolveRegion_of_truthy_lookup {city : String}
    {table : List (String × String)}
    (h : pyTruthyStr (List.lookup city table) = true) (obs : Observation) :
    resolveRegion city obs table = List.lookup city table := by
  unfold resolveRegion
  simp only [h, if_true]

/-- Re-resolving an observation to which a truthy region has been attached
yields the same region: either the table decides both times, or the attached
region field is picked up by method 2. -/
theorem resolveRegion_attach {city : String} {table : List (String × String)}
    {obs : Observation} {r : String} {i : Nat}
    (hres : resolveRegion city obs table = some r) (hr : r ≠ "") :
    resolveRegion city (attachRegion obs r i) table = some r := by
  by_cases hL : pyTruthyStr (List.lookup city table) = true
  · rw [resolveRegion_of_truthy_lookup hL]
    rw [resolveRegion_of_truthy_lookup hL] at hres
    exact hres
  · have hL2 : pyTruthyStr (List.lookup city table) = false := by
      simpa using hL
    cases hod : obs.data with
    | none =>
        have hsame : attachRegion obs r i = obs := by
          simp [attachRegion, hod]
        rw [hsame]
        exact hres
    | some dd =>
        have hatt : attachRegion obs r i =
            ⟨some { dd with region := some r, region_id := some i }⟩ := by
          simp [attachRegion, hod]
        rw [hatt]
        unfold resolveRegion
        simp only [hL2, if_false]
        simp [pyTruthyStr, hr]

/-- Every emitted entry of `map_cities_to_regions` is a fixed point of the
per-city loop body. -/
theorem processCity_fix (table : List (String × String))
    (l : List (String × Observation)) :
    ∀ p ∈ map_cities_to_regions l table, processCity table p = some p := by
  intro p hp
  obtain ⟨q, hq, hpq⟩ := List.mem_filterMap.mp hp
  obtain ⟨r, i, hres, hr, hid, hi, hout⟩ := processCity_eq_some hpq
  subst hout
  have hres2 : resolveRegion q.1 (attachRegion q.2 r i) table = some r :=
    resolveRegion_attach hres hr
  have hatt2 : attachRegion (attachRegion q.2 r i) r i = attachRegion q.2 r i := by
    cases hod : q.2.data with
    | none => simp [attachRegion, hod]
    | some dd => simp [attachRegion, hod]
  simp [processCity, hres2, hr, hid, hi, hatt2]

theorem filterMap_fixpoint {α : Type} (p : α → Option α) :
    ∀ l : List α, (∀ x ∈ l, p x = some x) → l.filterMap p = l := by
  intro l
  induction l with
  | nil => intro _; rfl
  | cons a t ih =>
      intro h
      rw [List.filterMap_cons, h a (List.mem_cons_self a t),
        ih (fun x hx => h x (List.mem_cons_of_mem a hx))]

theorem lookup_addToGroup (acc : List (Nat × List Observation)) (rid : Nat)
    (d : Observation) (k : Nat) :
    List.lookup k (addToGroup acc rid d) =
      if k = rid then some ((List.lookup rid acc).getD [] ++ [d])
      else List.lookup k acc := by
  induction acc with
  | nil =>
      simp only [addToGroup, List.lookup]
      by_cases hk : k = rid
      · simp [hk]
      · have hbeq : (k == rid) = false := by simpa using hk
        simp [hk, hbeq]
  | cons p t ih =>
      obtain ⟨k0, g0⟩ := p
      by_cases h0 : k0 = rid
      · subst h0
        simp only [addToGroup, if_pos rfl, List.lookup]
        by_cases hk : k = k0
        · simp [hk]
        · have hbeq : (k == k0) = false := by simpa using hk
          simp [hk, hbeq]
      · simp only [addToGroup, if_neg h0, List.lookup]
        by_cases hk : k = k0
        · subst hk
          simp [h0, List.lookup]
        · have hbeq : (k == k0) = false := by simpa using hk
          rw [hbeq]
          simp only [ih]
          by_cases hkr : k = rid
          · subst hkr
            simp [List.lookup, hbeq]
          · simp [hkr]

theorem glook_foldl (l : List (String × Observation)) :
    ∀ (acc : List (Nat × List Observation)) (k : Nat),
      (List.lookup k (l.foldl groupStep acc)).getD [] =
        (List.lookup k acc).getD [] ++ region_partition k l := by
  induction l with
  | nil => intro acc k; simp [region_partition]
  | cons p t ih =>
      intro acc k
      rw [List.foldl_cons, ih]
      cases hpd : p.2.data with
      | none =>
          simp [groupStep, hpd, region_partition, List.filterMap_cons]
      | some dd =>
          cases hrid : dd.region_id with
          | none =>
              simp [groupStep, hpd, hrid, region_partition, List.filterMap_cons]
          | some rid =>
              by_cases hk : k = rid
              · subst hk
                simp only [groupStep, hpd, hrid, lookup_addToGroup, if_pos rfl,
                  Option.getD_some, region_partition, List.filterMap_cons]
                simp [region_partition]
              · have hrk : ¬ rid = k := fun hcon => hk hcon.symm
                simp only [groupStep, hpd, hrid, lookup_addToGroup, if_neg hk,
                  region_partition, List.filterMap_cons]
                simp [hpd, hrid, hrk]

theorem keys_addToGroup (rid : Nat) (d : Observation) :
    ∀ acc : List (Nat × List Observation),
      (addToGroup acc rid d).map Prod.fst =
        if rid ∈ acc.map Prod.fst then acc.map Prod.fst
        else acc.map Prod.fst ++ [rid] := by
  intro acc
  induction acc with
  | nil => simp [addToGroup]
  | cons p t ih =>
      obtain ⟨k0, g0⟩ := p
      by_cases h0 : k0 = rid
      · subst h0
        simp [addToGroup]
      · have h0r : ¬ rid = k0 := fun hcon => h0 hcon.symm
        simp only [addToGroup, if_neg h0, List.map_cons, ih]
        by_cases ht : rid ∈ t.map Prod.fst
        · simp [ht, h0r]
        · simp [ht, h0r]

theorem nodup_keys_groupStep (acc : List (Nat × List Observation))
    (p : String × Observation) (h : (acc.map Prod.fst).Nodup) :
    ((groupStep acc p).map Prod.fst).Nodup := by
  cases hpd : p.2.data with
  | none => simpa [groupStep, hpd] using h
  | some dd =>
      cases hrid : dd.region_id with
      | none => simpa [groupStep, hpd, hrid] using h
      | some rid =>
          have hstep : groupStep acc p = addToGroup acc rid p.2 := by
            simp [groupStep, hpd, hrid]
          rw [hstep, keys_addToGroup]
          by_cases hmem : rid ∈ acc.map Prod.fst
          · simpa [hmem] using h
          · rw [if_neg hmem]
            refine h.append (List.nodup_singleton rid) ?_
            intro a ha hb
            rw [List.mem_singleton] at hb
            subst hb
            exact hmem ha

theorem nodup_keys_foldl (l : List (String × Observation)) :
    ∀ acc : List (Nat × List Observation), (acc.map Prod.fst).Nodup →
      ((l.foldl groupStep acc).map Prod.fst).Nodup := by
  induction l with
  | nil => intro acc h; exact h
  | cons p t ih =>
      intro acc h
      rw [List.foldl_cons]
      exact ih _ (nodup_keys_groupStep acc p h)

theorem lookup_of_mem_nodupKeys {α β : Type} [BEq α] [LawfulBEq α] :
    ∀ (l : List (α × β)), (l.map Prod.fst).Nodup →
      ∀ {a : α} {b : β}, (a, b) ∈ l → List.lookup a l = some b := by
  intro l
  induction l with
  | nil => intro _ a b h; cases h
  | cons p t ih =>
      intro hnd a b hmem
      obtain ⟨k, v⟩ := p
      rcases List.mem_cons.mp hmem with heq | hmem2
      · obtain ⟨rfl, rfl⟩ := Prod.mk.injEq .. |>.mp heq
        simp [List.lookup]
      · have hk : a ≠ k := by
          intro hak
          subst hak
          have : a ∈ t.map Prod.fst := by
            exact List.mem_map.mpr ⟨(a, b), hmem2, rfl⟩
          exact (List.nodup_cons.mp (by simpa using hnd)).1 this
        have hbeq : (a == k) = false := by simpa using hk
        rw [List.lookup, hbeq]
        exact ih (List.nodup_cons.mp (by simpa using hnd)).2 hmem2

/-- The group a region id receives in `groupByRegion` is exactly the partition
of the input by that region id, in input order. -/
theorem group_eq_partition (mapped : List (String × Observation)) (rid : Nat)
    (cities : List Observation) (h : (rid, cities) ∈ groupByRegion mapped) :
    cities = region_partition rid mapped := by
  have hnodup : ((groupByRegion mapped).map Prod.fst).Nodup :=
    nodup_keys_foldl mapped [] (by simp)
  have hlook : List.lookup rid (List.foldl groupStep [] mapped) = some cities :=
    lookup_of_mem_nodupKeys _ hnodup h
  have hg := glook_foldl mapped [] rid
  rw [hlook] at hg
  simpa using hg

theorem aggField_eq_none (vals : List ℚ) : aggField vals = none ↔ vals = [] := by
  unfold aggField
  split <;> simp_all

theorem mean_singleton (v : ℚ) : mean [v] = v := by
  simp [mean]

theorem aggField_singleton (v : ℚ) : aggField [v] = some (roundTo2 v) := by
  simp [aggField, mean_singleton]

theorem cleanup_spec {α : Type} (xs : List α) (m : Nat) (hm : 1 ≤ m) :
    (cleanup_old_entries xs m).length ≤ m ∧
    cleanup_old_entries xs m = xs.drop (xs.length - m) := by
  have hm0 : m ≠ 0 := by omega
  unfold cleanup_old_entries pySliceLast
  by_cases hlen : xs.length > m
  · rw [if_pos hlen, if_neg hm0]
    refine ⟨?_, rfl⟩
    rw [List.length_drop]
    omega
  · rw [if_neg hlen]
    refine ⟨Nat.le_of_not_lt hlen, ?_⟩
    have hz : xs.length - m = 0 := by omega
    rw [hz, List.drop_zero]

/-- Python rounding to two decimal places is the identity on rationals that
already have at most two decimal places. -/
theorem roundTo2_eq_self (v : ℚ) (h : (v * 100).den = 1) : roundTo2 v = v := by
  have hx : ((v * 100).num : ℚ) = v * 100 := by
    rw [← Rat.den_eq_one_iff]
    exact h
  have hfloor : ⌊v * 100⌋ = (v * 100).num := by
    conv_lhs => rw [← hx]
    exact Int.floor_intCast _
  unfold roundTo2 roundHalfEven
  rw [hfloor]
  have hcond : v * 100 - ((v * 100).num : ℚ) < 1 / 2 := by
    rw [hx]
    norm_num
  rw [if_pos hcond, hx, mul_div_assoc]
  norm_num

/-! ## Claim theorems -/

/-- C1: for every coordinate pair, the coordinate fallback tests
point-in-bounding-box against every region in declaration order and returns the
first region whose box contains the point (bounds inclusive); if no box
contains the point it returns the region whose bounding-box centroid minimises
planar Euclidean distance in latitude/longitude units, with ties broken in
favour of the first-declared region.  Stated as equality with the
specification-worded resolver (distance comparisons carried out on the squared
distances, which agree with comparisons of the Euclidean distances). -/
theorem c1_coordinate_fallback (lat lon : ℚ) :
    get_region_from_coordinates lat lon = coordinate_fallback_spec lat lon := by
  unfold get_region_from_coordinates coordinate_fallback_spec
  cases hfind : UK_REGIONS.find? (fun rb => containsPoint rb.2 lat lon) with
  | some rb => rfl
  | none =>
      rw [foldMin_eq_find_min]

/-- C2 counterexample: the city-to-region table may map a name to the empty
string; the name is then present in the table, yet resolution does not return
the table value (the empty string is falsy in Python, so the pre-existing
region field wins instead). -/
theorem c2_counterexample :
    List.lookup "X" [("X", "")] = some "" ∧
    resolveRegion "X" obsC2 [("X", "")] = some "London" ∧
    ("London" : String) ≠ "" := by
  refine ⟨rfl, ?_, by decide⟩
  rfl

/-- C2 (amended): for every raw observation whose location name the table maps
to a NON-EMPTY region name, resolution returns exactly that region, regardless
of any pre-existing region field or coordinates carried by the observation. -/
theorem c2_table_precedence (city : String) (obs : Observation)
    (table : List (String × String)) (v : String)
    (hlook : List.lookup city table = some v) (hv : v ≠ "") :
    resolveRegion city obs table = some v := by
  have ht : pyTruthyStr (List.lookup city table) = true := by
    rw [hlook]
    simp [pyTruthyStr, hv]
  unfold resolveRegion
  rw [hlook] at ht ⊢
  simp only [ht, if_true]

/-- C2 witness: a concrete table entry with a non-empty region wins over a
conflicting pre-existing region field. -/
theorem c2_table_precedence_witness :
    List.lookup "Leeds" [("Leeds", "Yorkshire")] = some "Yorkshire" ∧
    ("Yorkshire" : String) ≠ "" ∧
    resolveRegion "Leeds" obsC2 [("Leeds", "Yorkshire")] = some "Yorkshire" :=
  ⟨rfl, by decide,
   c2_table_precedence "Leeds" obsC2 [("Leeds", "Yorkshire")] "Yorkshire" rfl (by decide)⟩

/-- C3 evidence of the code bug: starting one failure short of the threshold,
a failed run at `t = 3600` drives the consecutive-failure counter to the
threshold and `run_pipeline_safe` does sleep the extra 300 seconds, but the
scheduler computes the next scheduled run time from the timestamp taken before
the run, so that time is `t + 1800` — strictly less than the
`t + interval + backoff` the claim requires. -/
theorem c3_backoff_gap :
    (run_pipeline_safe statsC3 false true true 3600 2).1.consecutive_failures =
      MAX_CONSECUTIVE_FAILURES ∧
    (run_pipeline_safe statsC3 false true true 3600 2).2.2 =
      2 + FAILURE_BACKOFF_SECONDS ∧
    next_run_time_after 3600 = 3600 + 60 * PIPELINE_INTERVAL_MINUTES ∧
    next_run_time_after 3600 <
      3600 + 60 * PIPELINE_INTERVAL_MINUTES + FAILURE_BACKOFF_SECONDS := by
  refine ⟨rfl, rfl, rfl, ?_⟩
  decide

/-- C4: when Extract fails, Transform and Load are not invoked, the run is
marked failed, and the statistics update increments the total-run count, the
failed-run count and the consecutive-failure count by exactly one; when a run
succeeds, the consecutive-failure counter is reset to zero and the last-success
timestamp is recorded (the total-run count still increments). -/
theorem c4_stage_gating_and_stats (s : Stats) (t l : Bool) (now : Nat) :
    (run_pipeline false t l).transform_invoked = false ∧
    (run_pipeline false t l).load_invoked = false ∧
    (run_pipeline false t l).success = false ∧
    (update_stats s false now).total_runs = s.total_runs + 1 ∧
    (update_stats s false now).failed_runs = s.failed_runs + 1 ∧
    (update_stats s false now).consecutive_failures = s.consecutive_failures + 1 ∧
    (update_stats s true now).total_runs = s.total_runs + 1 ∧
    (update_stats s true now).consecutive_failures = 0 ∧
    (update_stats s true now).last_successful_run = some now := by
  refine ⟨rfl, rfl, rfl, ?_, ?_, ?_, ?_, ?_, ?_⟩ <;> simp [update_stats]

/-- C5: for EVERY aggregates input and emissions input the merge output
carries exactly the region ids of the aggregates input (in particular never a
region id present only in the emissions input — the keys conjunct holds
unconditionally), and a region id with no matching emissions entry still
yields a merged record carrying the region name, cities count, weather and
pollution of its aggregate but none of the intensity, generation-mix, from or
to fields; the merge is a total function, so no error is raised. -/
theorem c5_merge_left_outer (aggs : List (Nat × AggData))
    (co2 : List (Nat × Co2Region)) :
    (merge_data aggs co2).map Prod.fst = aggs.map Prod.fst ∧
    (∀ (rid : Nat) (rec : MergedRecord), (rid, rec) ∈ merge_data aggs co2 →
      List.lookup rid co2 = none →
      rec.intensity = none ∧ rec.generationmix = none ∧
      rec.fromT = none ∧ rec.toT = none ∧
      ∃ agg, (rid, agg) ∈ aggs ∧ rec.region = agg.region ∧
        rec.cities_count = agg.cities_count ∧ rec.weather = agg.weather ∧
        rec.pollution = agg.pollution) := by
  refine ⟨by simp [merge_data], ?_⟩
  intro rid rec hmem hco2
  obtain ⟨p, hp, heq⟩ := List.mem_map.mp hmem
  obtain ⟨rid0, agg⟩ := p
  simp only [Prod.mk.injEq] at heq
  obtain ⟨hr, hrec⟩ := heq
  subst hr
  subst hrec
  refine ⟨?_, ?_, ?_, ?_, agg, hp, ?_, ?_, ?_, ?_⟩ <;> simp [mergeOne, hco2]

/-- C5 witness: an emissions input that is a strict superset of the aggregate
regions never surfaces its extra region id, and one aggregate-only region
merged against an empty emissions input produces the base record with all four
emissions fields absent. -/
theorem c5_merge_left_outer_witness :
    ((merge_data [(13, aggC5)] [(13, ⟨none⟩), (7, ⟨none⟩)]).map Prod.fst = [13]) ∧
    ((13, mergeOne 13 aggC5 []) ∈ merge_data [(13, aggC5)] ([] : List (Nat × Co2Region))) ∧
    List.lookup 13 ([] : List (Nat × Co2Region)) = none ∧
    ((merge_data [(13, aggC5)] ([] : List (Nat × Co2Region))).map Prod.fst = [13] ∧
     (mergeOne 13 aggC5 []).intensity = none ∧
     (mergeOne 13 aggC5 []).fromT = none) := by
  have hsup := (c5_merge_left_outer [(13, aggC5)] [(13, ⟨none⟩), (7, ⟨none⟩)]).1
  have h := c5_merge_left_outer [(13, aggC5)] ([] : List (Nat × Co2Region))
  have h2 := h.2 13 (mergeOne 13 aggC5 []) (by simp [merge_data]) rfl
  exact ⟨by simpa using hsup, by simp [merge_data], rfl, by simpa using h.1,
    h2.1, h2.2.2.1⟩

/-- C8 counterexample: an observation without a `data` sub-object whose city is
in the table is emitted by the resolver unchanged, carrying no region id at
all — the output is not restricted to observations with a catalog region id. -/
theorem c8_counterexample :
    ("Leeds", obsNoData) ∈
      map_cities_to_regions [("Leeds", obsNoData)] [("Leeds", "Yorkshire")] ∧
    (obsNoData.data.bind (fun dd => dd.region_id)) = none := by
  refine ⟨?_, rfl⟩
  have : map_cities_to_regions [("Leeds", obsNoData)] [("Leeds", "Yorkshire")] =
      [("Leeds", obsNoData)] := rfl
  rw [this]
  exact List.mem_singleton.mpr rfl

/-- C8 (amended): every observation in the resolver output that carries a
`data` sub-object carries a region name and a region id drawn from the Region
Catalog; an observation whose resolution yields a falsy region name, or a
region name whose catalog id is falsy, is dropped from the output.
(Observations without a `data` sub-object can pass through untagged when a
strategy resolves their region — the counterexample above.) -/
theorem c8_region_id_invariant (table : List (String × String))
    (l : List (String × Observation)) (c : String) (o : Observation)
    (hmem : (c, o) ∈ map_cities_to_regions l table) :
    (∀ dd, o.data = some dd →
      ∃ r i, dd.region = some r ∧ dd.region_id = some i ∧
        (r, i) ∈ REGION_NAME_TO_ID) ∧
    (∀ entry : String × Observation,
      pyTruthyStr (resolveRegion entry.1 entry.2 table) = false →
      processCity table entry = none) ∧
    (∀ entry : String × Observation, ∀ r : String,
      resolveRegion entry.1 entry.2 table = some r →
      pyTruthyNat (List.lookup r REGION_NAME_TO_ID) = false →
      processCity table entry = none) := by
  refine ⟨?_, ?_, ?_⟩
  · intro dd hdd
    obtain ⟨q, hq, hpq⟩ := List.mem_filterMap.mp hmem
    obtain ⟨r, i, hres, hr, hid, hi, hout⟩ := processCity_eq_some hpq
    have ho : o = attachRegion q.2 r i := congrArg Prod.snd hout
    cases hod : q.2.data with
    | none =>
        rw [ho] at hdd
        simp [attachRegion, hod] at hdd
    | some dd0 =>
        rw [ho] at hdd
        simp only [attachRegion, hod] at hdd
        obtain rfl := Option.some.inj hdd
        exact ⟨r, i, rfl, rfl, mem_of_lookup _ _ _ hid⟩
  · intro entry hfalsy
    cases hres : resolveRegion entry.1 entry.2 table with
    | none => simp [processCity, hres]
    | some r =>
        rw [hres] at hfalsy
        have hr : r = "" := by simpa [pyTruthyStr] using hfalsy
        simp [processCity, hres, hr]
  · intro entry r hres hfalsy
    by_cases hr : r = ""
    · simp [processCity, hres, hr]
    · cases hid : List.lookup r REGION_NAME_TO_ID with
      | none => simp [processCity, hres, hr, hid]
      | some i =>
          rw [hid] at hfalsy
          have hi : i = 0 := by simpa [pyTruthyNat] using hfalsy
          simp [processCity, hres, hr, hid, hi]

/-- C8 witness: a resolved observation with a `data` sub-object carries a
catalog region id. -/
theorem c8_region_id_invariant_witness :
    (("Leeds", obsC8R) ∈
      map_cities_to_regions [("Leeds", obsC8)] [("Leeds", "Yorkshire")]) ∧
    (∃ r i, cityDataC8.region = some r ∧ cityDataC8.region_id = some i ∧
      (r, i) ∈ REGION_NAME_TO_ID) :=
  ⟨by decide,
   (c8_region_id_invariant [("Leeds", "Yorkshire")] [("Leeds", obsC8)]
      "Leeds" obsC8R (by decide)).1 cityDataC8 rfl⟩

/-- C9: resolution is idempotent — the resolver output is unchanged by a second
resolution against the same table, and every emitted observation (in
particular one already carrying `region`/`region_id` attached by the previous
resolution) re-resolves to exactly the same entry. -/
theorem c9_resolution_idempotent (table : List (String × String))
    (l : List (String × Observation)) (c : String) (o : Observation)
    (hmem : (c, o) ∈ map_cities_to_regions l table) :
    map_cities_to_regions (map_cities_to_regions l table) table =
      map_cities_to_regions l table ∧
    processCity table (c, o) = some (c, o) :=
  ⟨filterMap_fixpoint _ _ (processCity_fix table l),
   processCity_fix table l (c, o) hmem⟩

/-- C9 witness: a concrete resolved observation re-resolves to itself. -/
theorem c9_resolution_idempotent_witness :
    (("Leeds", obsC9R) ∈
      map_cities_to_regions [("Leeds", obsC9)] [("Leeds", "Yorkshire")]) ∧
    (map_cities_to_regions
        (map_cities_to_regions [("Leeds", obsC9)] [("Leeds", "Yorkshire")])
        [("Leeds", "Yorkshire")] =
      map_cities_to_regions [("Leeds", obsC9)] [("Leeds", "Yorkshire")] ∧
     processCity [("Leeds", "Yorkshire")] ("Leeds", obsC9R) =
       some ("Leeds", obsC9R)) :=
  ⟨by decide,
   c9_resolution_idempotent [("Leeds", "Yorkshire")] [("Leeds", obsC9)]
     "Leeds" obsC9R (by decide)⟩

/-- C6: for every input, a metric key with zero contributing values across a
region partition is absent from the aggregate of that region (stated as an iff, so
it is never emitted for an empty value list and always emitted otherwise),
the cities_count of each region equals the partition size counting all members,
and the empty input yields the empty output without error. -/
theorem c6_aggregation (mapped : List (String × Observation)) (rid : Nat)
    (agg : AggData) (hmem : (rid, agg) ∈ aggregate_by_region mapped) :
    agg.cities_count = (region_partition rid mapped).length ∧
    (agg.weather.hu = none ↔
      weatherVals (region_partition rid mapped) (fun w => w.hu) = []) ∧
    (agg.weather.pr = none ↔
      weatherVals (region_partition rid mapped) (fun w => w.pr) = []) ∧
    (agg.weather.tp = none ↔
      weatherVals (region_partition rid mapped) (fun w => w.tp) = []) ∧
    (agg.weather.wd = none ↔
      weatherVals (region_partition rid mapped) (fun w => w.wd) = []) ∧
    (agg.weather.ws = none ↔
      weatherVals (region_partition rid mapped) (fun w => w.ws) = []) ∧
    (agg.pollution.aqius = none ↔
      pollutionVals (region_partition rid mapped) (fun p => p.aqius) = []) ∧
    (agg.pollution.aqicn = none ↔
      pollutionVals (region_partition rid mapped) (fun p => p.aqicn) = []) ∧
    aggregate_by_region ([] : List (String × Observation)) = [] := by
  obtain ⟨⟨rid0, cities⟩, hg, heq⟩ := List.mem_map.mp hmem
  simp only [Prod.mk.injEq] at heq
  obtain ⟨hr, hagg⟩ := heq
  subst hr
  subst hagg
  have hc := group_eq_partition mapped rid0 cities hg
  subst hc
  refine ⟨rfl, ?_, ?_, ?_, ?_, ?_, ?_, ?_, rfl⟩ <;>
    simp [aggregateOne, aggField_eq_none]

/-- C6 witness: a single-city region with no current-conditions object has
cities_count 1 and no humidity key in its aggregate. -/
theorem c6_aggregation_witness :
    ((5, aggregateOne 5 [obsC6]) ∈ aggregate_by_region [("A", obsC6)]) ∧
    ((aggregateOne 5 [obsC6]).cities_count =
      (region_partition 5 [("A", obsC6)]).length ∧
     ((aggregateOne 5 [obsC6]).weather.hu = none ↔
       weatherVals (region_partition 5 [("A", obsC6)]) (fun w => w.hu) = [])) := by
  have hmem : (5, aggregateOne 5 [obsC6]) ∈ aggregate_by_region [("A", obsC6)] := by
    have hl : aggregate_by_region [("A", obsC6)] = [(5, aggregateOne 5 [obsC6])] := rfl
    rw [hl]
    exact List.mem_singleton.mpr rfl
  have h := c6_aggregation [("A", obsC6)] 5 (aggregateOne 5 [obsC6]) hmem
  exact ⟨hmem, h.1, h.2.1⟩

/-- C7 counterexample: a single-location partition whose location reports a
humidity of 1/8 = 0.125 — a dyadic value, exactly representable as a float, on
which CPython round and this model agree — aggregates to a humidity of
0.12 = 3/25 (the mean is rounded half-to-even to two decimal places), not to
the value of the location itself. -/
theorem c7_counterexample :
    aggregate_by_region [("A", obsC7)] = [(5, aggregateOne 5 [obsC7])] ∧
    ((obsC7.data.bind (fun dd => dd.current)).bind (fun c => c.weather)).bind
      (fun w => w.hu) = some (1 / 8) ∧
    IsDyadic ((1 : ℚ) / 8) ∧
    (aggregateOne 5 [obsC7]).weather.hu = some (3 / 25) ∧
    some ((3 : ℚ) / 25) ≠ some ((1 : ℚ) / 8) := by
  refine ⟨rfl, rfl, ⟨1, 3, by norm_num⟩, ?_, ?_⟩
  · have h1 : (aggregateOne 5 [obsC7]).weather.hu = aggField [1 / 8] := rfl
    rw [h1, aggField_singleton]
    norm_num [roundTo2, roundHalfEven]
  · intro hcon
    have h2 := Option.some.inj hcon
    norm_num at h2

/-- C7 (amended): for every region partition containing exactly one location,
each metric present in the observation of that location whose value is a
DYADIC rational — the exact value of a binary float, the only values the
JSON-parsed program data can hold, and the domain on which the model of the
CPython rounding is faithful — appears in the aggregate with value equal to
that value ROUNDED HALF-TO-EVEN TO TWO DECIMAL PLACES, hence exactly the value
of the location itself whenever it also has at most two decimal places. -/
theorem c7_single_location (mapped : List (String × Observation)) (rid : Nat)
    (agg : AggData) (d : Observation)
    (hmem : (rid, agg) ∈ aggregate_by_region mapped)
    (hpart : region_partition rid mapped = [d]) :
    (∀ v : ℚ, IsDyadic v →
      ((d.data.bind (fun dd => dd.current)).bind (fun c => c.weather)).bind
        (fun w => w.hu) = some v → agg.weather.hu = some (roundTo2 v)) ∧
    (∀ v : ℚ, IsDyadic v →
      ((d.data.bind (fun dd => dd.current)).bind (fun c => c.weather)).bind
        (fun w => w.pr) = some v → agg.weather.pr = some (roundTo2 v)) ∧
    (∀ v : ℚ, IsDyadic v →
      ((d.data.bind (fun dd => dd.current)).bind (fun c => c.weather)).bind
        (fun w => w.tp) = some v → agg.weather.tp = some (roundTo2 v)) ∧
    (∀ v : ℚ, IsDyadic v →
      ((d.data.bind (fun dd => dd.current)).bind (fun c => c.weather)).bind
        (fun w => w.wd) = some v → agg.weather.wd = some (roundTo2 v)) ∧
    (∀ v : ℚ, IsDyadic v →
      ((d.data.bind (fun dd => dd.current)).bind (fun c => c.weather)).bind
        (fun w => w.ws) = some v → agg.weather.ws = some (roundTo2 v)) ∧
    (∀ v : ℚ, IsDyadic v →
      ((d.data.bind (fun dd => dd.current)).bind (fun c => c.pollution)).bind
        (fun p => p.aqius) = some v → agg.pollution.aqius = some (roundTo2 v)) ∧
    (∀ v : ℚ, IsDyadic v →
      ((d.data.bind (fun dd => dd.current)).bind (fun c => c.pollution)).bind
        (fun p => p.aqicn) = some v → agg.pollution.aqicn = some (roundTo2 v)) ∧
    (∀ v : ℚ, IsDyadic v → (v * 100).den = 1 → roundTo2 v = v) := by
  obtain ⟨⟨rid0, cities⟩, hg, heq⟩ := List.mem_map.mp hmem
  simp only [Prod.mk.injEq] at heq
  obtain ⟨hr, hagg⟩ := heq
  subst hr
  subst hagg
  have hc := group_eq_partition mapped rid0 cities hg
  rw [hpart] at hc
  subst hc
  refine ⟨?_, ?_, ?_, ?_, ?_, ?_, ?_, fun v _ hv => roundTo2_eq_self v hv⟩ <;>
  · intro v _ hv
    simp [aggregateOne, weatherVals, pollutionVals, List.filterMap_cons, hv,
      aggField_singleton]

/-- C7 witness: a single-location partition with a two-decimal humidity value
aggregates to exactly that value. -/
theorem c7_single_location_witness :
    ((5, aggregateOne 5 [obsC7W]) ∈ aggregate_by_region [("A", obsC7W)]) ∧
    region_partition 5 [("A", obsC7W)] = [obsC7W] ∧
    (aggregateOne 5 [obsC7W]).weather.hu = some (roundTo2 40) ∧
    roundTo2 40 = 40 := by
  have hmem : (5, aggregateOne 5 [obsC7W]) ∈ aggregate_by_region [("A", obsC7W)] := by
    have hl : aggregate_by_region [("A", obsC7W)] = [(5, aggregateOne 5 [obsC7W])] := rfl
    rw [hl]
    exact List.mem_singleton.mpr rfl
  have hpart : region_partition 5 [("A", obsC7W)] = [obsC7W] := rfl
  have h := c7_single_location [("A", obsC7W)] 5 (aggregateOne 5 [obsC7W]) obsC7W
    hmem hpart
  have hdy : IsDyadic (40 : ℚ) := ⟨40, 0, by norm_num⟩
  have hden : ((40 : ℚ) * 100).den = 1 := by
    have h40 : (40 : ℚ) * 100 = ((4000 : ℤ) : ℚ) := by norm_num
    rw [h40, Rat.den_intCast]
  exact ⟨hmem, hpart, h.1 40 hdy rfl, h.2.2.2.2.2.2.2 40 hdy hden⟩

/-- C10 counterexample: with a bound of 0, the Python slice `data[-0:]` is the
whole list, so cleanup leaves a nonempty list untouched and the result is not
of length at most the bound. -/
theorem c10_counterexample :
    cleanup_old_entries [(1 : Nat)] 0 = [1] ∧
    ¬ (cleanup_old_entries [(1 : Nat)] 0).length ≤ 0 := by
  decide

/-- C10 (amended): for every historical-data list and every POSITIVE
max_entries bound, cleanup leaves a list of length at most the bound, keeping
exactly the most recent entries (the suffix of the original list), and leaves
a list of length at most the bound unchanged; in the loader main flow each of
the three historical files is capped at 50 entries after a successful load. -/
theorem c10_cleanup_cap (α : Type) (xs : List α) (max_entries : Nat)
    (h : 1 ≤ max_entries) :
    (cleanup_old_entries xs max_entries).length ≤ max_entries ∧
    cleanup_old_entries xs max_entries = xs.drop (xs.length - max_entries) ∧
    (xs.length ≤ max_entries → cleanup_old_entries xs max_entries = xs) ∧
    (∀ h1 h2 h3 : List α,
      (loader_cleanup_phase h1 h2 h3).1.length ≤ 50 ∧
      (loader_cleanup_phase h1 h2 h3).2.1.length ≤ 50 ∧
      (loader_cleanup_phase h1 h2 h3).2.2.length ≤ 50) := by
  refine ⟨(cleanup_spec xs _ h).1, (cleanup_spec xs _ h).2, ?_, ?_⟩
  · intro hle
    unfold cleanup_old_entries
    rw [if_neg (by omega)]
  · intro h1 h2 h3
    exact ⟨(cleanup_spec h1 50 (by norm_num)).1,
           (cleanup_spec h2 50 (by norm_num)).1,
           (cleanup_spec h3 50 (by norm_num)).1⟩

/-- C10 witness: cleanup with bound 2 keeps the two most recent entries. -/
theorem c10_cleanup_cap_witness :
    1 ≤ 2 ∧ (cleanup_old_entries [(1 : Nat), 2, 3, 4] 2).length ≤ 2 ∧
    cleanup_old_entries [(1 : Nat), 2, 3, 4] 2 = [3, 4] := by
  have h := c10_cleanup_cap Nat [1, 2, 3, 4] 2 (by decide)
  refine ⟨by decide, h.1, ?_⟩
  rw [h.2.1]
  decide

end ETL
